import Mathlib

/-!
Verification of the mruby/c bytecode-executor header (`src/vm.h`): the
binary decoder inline functions, the IREP / catch-handler / call-info /
VM data model, and the call-stack operations described by the
specification.  Machine integers are modelled as `Nat` with explicit
truncation (`% 2^32`, `% 2^16`, `% 256`) exactly where the C types force
it; byte memory is modelled as a function from addresses to byte values.
-/

namespace Mrubyc

/-! ## Machine-integer truncation (C unsigned conversions) -/

/-- Conversion to `uint32_t`: reduction modulo `2^32`. -/
def u32 (x : Nat) : Nat := x % 4294967296

/-- Conversion to `uint16_t`: reduction modulo `2^16`. -/
def u16 (x : Nat) : Nat := x % 65536

/-! ## Binary decoder (`vm.h` inline functions)

Each conditional-compilation variant of `bin_to_uint32` / `bin_to_uint16`
is embedded as a separate function of the input bytes `b0 b1 b2 b3`
(the bytes at `s[0] .. s[3]`).  The raw `uint32_t` / `uint16_t` memory
load performed on line 168 / 174 (resp. 209 / 214) is modelled by its
host-endianness value. -/

/-- `bin_to_uint32`, variant `MRBC_LITTLE_ENDIAN && !MRBC_REQUIRE_32BIT_ALIGNMENT`
(vm.h lines 167-169): a little-endian `uint32_t` load followed by the
byte-swap expression `(x << 24) | ((x & 0xff00) << 8) | ((x >> 8) & 0xff00) | (x >> 24)`. -/
def bin_to_uint32_le (b0 b1 b2 b3 : Nat) : Nat :=
  let x := b0 + b1 * 256 + b2 * 65536 + b3 * 16777216
  u32 (x <<< 24) ||| u32 ((x &&& 0xff00) <<< 8) ||| ((x >>> 8) &&& 0xff00) ||| (x >>> 24)

/-- `bin_to_uint32`, variant `MRBC_BIG_ENDIAN && !MRBC_REQUIRE_32BIT_ALIGNMENT`
(vm.h lines 173-175): a big-endian `uint32_t` load returned unchanged. -/
def bin_to_uint32_be (b0 b1 b2 b3 : Nat) : Nat :=
  let x := b0 * 16777216 + b1 * 65536 + b2 * 256 + b3
  x

/-- `bin_to_uint32`, variant `MRBC_REQUIRE_32BIT_ALIGNMENT`
(vm.h lines 182-191): byte-at-a-time accumulation
`x = *p++; x <<= 8; x |= *p++; x <<= 8; x |= *p++; x <<= 8; x |= *p`. -/
def bin_to_uint32_align (b0 b1 b2 b3 : Nat) : Nat :=
  let x := b0
  let x := u32 (x <<< 8)
  let x := x ||| b1
  let x := u32 (x <<< 8)
  let x := x ||| b2
  let x := u32 (x <<< 8)
  let x := x ||| b3
  x

/-- `bin_to_uint16`, little-endian unaligned variant (vm.h lines 208-210):
a little-endian `uint16_t` load, then `(x << 8) | (x >> 8)` computed in
(promoted) `int` arithmetic and truncated to `uint16_t` at the return. -/
def bin_to_uint16_le (b0 b1 : Nat) : Nat :=
  let x := b0 + b1 * 256
  u16 ((x <<< 8) ||| (x >>> 8))

/-- `bin_to_uint16`, big-endian unaligned variant (vm.h lines 213-215):
a big-endian `uint16_t` load returned unchanged. -/
def bin_to_uint16_be (b0 b1 : Nat) : Nat :=
  let x := b0 * 256 + b1
  x

/-- `bin_to_uint16`, alignment-required variant (vm.h lines 218-223):
`x = *p++; x <<= 8; x |= *p`. -/
def bin_to_uint16_align (b0 b1 : Nat) : Nat :=
  let x := b0
  let x := u16 (x <<< 8)
  let x := x ||| b1
  x

/-- The specification's description of the decoded value: the big-endian
interpretation `(b0 << 24) | (b1 << 16) | (b2 << 8) | b3` of the four
input bytes. -/
def be32_spec (b0 b1 b2 b3 : Nat) : Nat :=
  (b0 <<< 24) ||| (b1 <<< 16) ||| (b2 <<< 8) ||| b3

/-- The specification's description of the 16-bit decoded value:
`(b0 << 8) | b1`. -/
def be16_spec (b0 b1 : Nat) : Nat :=
  (b0 <<< 8) ||| b1

/-! ## Binary encoder (`uint32_to_bin` / `uint16_to_bin`) over byte memory -/

/-- A single byte store `*a = v` into a memory modelled as `Nat → Nat`. -/
def store (m : Nat → Nat) (a v : Nat) : Nat → Nat :=
  fun x => if x = a then v else m x

/-- `uint32_to_bin v d` (vm.h lines 235-245): writes the four big-endian
bytes of the `uint32_t` value `v` at addresses `d .. d+3`, last byte
first (`p = d+3; *p-- = 0xff & v; v >>= 8; ...`).  The entry reduction
`u32` models the `uint32_t` parameter type. -/
def uint32_to_bin (v d : Nat) (m : Nat → Nat) : Nat → Nat :=
  let v := u32 v
  let m := store m (d + 3) (0xff &&& v)
  let v := v >>> 8
  let m := store m (d + 2) (0xff &&& v)
  let v := v >>> 8
  let m := store m (d + 1) (0xff &&& v)
  let v := v >>> 8
  let m := store m d (0xff &&& v)
  m

/-- `uint16_to_bin v d` (vm.h lines 254-259): writes the two big-endian
bytes of the `uint16_t` value `v` at `d` and `d+1`
(`*p++ = (v >> 8); *p = 0xff & v`); the first store goes through the
implicit conversion to the `uint8_t` cell. -/
def uint16_to_bin (v d : Nat) (m : Nat → Nat) : Nat → Nat :=
  let v := u16 v
  let m := store m d ((v >>> 8) % 256)
  let m := store m (d + 1) (0xff &&& v)
  m

/-! ## IREP data model (`vm.h` struct IREP and its accessor macros) -/

/-- `struct IREP` (vm.h lines 33-53).  Pointer-valued fields are modelled
as `Nat` addresses; the trailing variable-length `data[]` block, which
the accessor macros read as the `uint16_t` array `tbl_pools[plen]`, is
modelled as a function from word index to stored (16-bit) value. -/
structure mrbc_irep where
  nlocals : Nat
  nregs : Nat
  rlen : Nat
  clen : Nat
  ilen : Nat
  plen : Nat
  slen : Nat
  code : Nat
  mrb_pool : Nat
  ptr_to_sym : Nat
  data : Nat → Nat

/-- Macro `mrbc_irep_tbl_pools` (vm.h line 57): reads entry `n` of the
`uint16_t` array laid over `irep->data`; the `% 65536` models the
16-bit cell width. -/
def mrbc_irep_tbl_pools (irep : mrbc_irep) (n : Nat) : Nat :=
  irep.data n % 65536

/-- Macro `mrbc_irep_get_pools_ptr` (vm.h line 58):
`(irep)->mrb_pool + mrbc_irep_tbl_pools(irep)[(n)]`.  Note that the
expansion contains no bounds check and no `MRBC_DEBUG` conditional. -/
def mrbc_irep_get_pools_ptr (irep : mrbc_irep) (n : Nat) : Nat :=
  irep.mrb_pool + mrbc_irep_tbl_pools irep n

/-! ## Catch-handler model (`vm.h` enum mrbc_catch_type, struct IREP_CATCH_HANDLER) -/

/-- `enum mrbc_catch_type` (vm.h lines 65-68). -/
inductive mrbc_catch_type where
  | MRB_CATCH_RESCUE
  | MRB_CATCH_ENSURE

/-- The numeric value of each enumerator (`MRB_CATCH_RESCUE = 0`,
`MRB_CATCH_ENSURE = 1`). -/
def mrbc_catch_type.toByte : mrbc_catch_type → Nat
  | .MRB_CATCH_RESCUE => 0
  | .MRB_CATCH_ENSURE => 1

/-- `struct IREP_CATCH_HANDLER` (vm.h lines 75-80): one `uint8_t` kind
byte followed by three 4-byte big-endian fields `begin`, `end`,
`target`, each modelled as its four bytes. -/
structure mrbc_irep_catch_handler where
  type : Nat
  begin : Fin 4 → Nat
  end_ : Fin 4 → Nat
  target : Fin 4 → Nat

/-- Size in bytes of one packed `IREP_CATCH_HANDLER` record:
`sizeof(uint8_t) + 3 * sizeof(uint8_t[4])`. -/
def catch_handler_size : Nat := 1 + 4 + 4 + 4

/-- Size in bytes of an IREP's catch table of `clen` records. -/
def catch_table_size (clen : Nat) : Nat := clen * catch_handler_size

/-- Big-endian value of a 4-byte field of a catch handler, decoded the
way the executor decodes it (via `bin_to_uint32` on a big-endian view). -/
def field32 (f : Fin 4 → Nat) : Nat :=
  bin_to_uint32_be (f 0) (f 1) (f 2) (f 3)

/-- Reads the packed catch-handler record laid out at address `base` of
byte memory `m`, following the field layout of `IREP_CATCH_HANDLER`. -/
def read_catch_handler (m : Nat → Nat) (base : Nat) : mrbc_irep_catch_handler :=
  { type := m base
  , begin := fun i => m (base + 1 + i)
  , end_ := fun i => m (base + 5 + i)
  , target := fun i => m (base + 9 + i) }

/-- Reads record `k` of the catch table starting at `base`. -/
def read_catch_table_entry (m : Nat → Nat) (base k : Nat) : mrbc_irep_catch_handler :=
  read_catch_handler m (base + k * catch_handler_size)

/-- Modelled from the spec: the image loader's catch-handler validity
invariant (the loader itself is not among the provided sources, only the
record layout in vm.h is).  Per the spec, the kind byte encodes an
`mrbc_catch_type`, `begin ≤ end` are offsets into the owning IREP's
code, and `target` is the offset jumped to on match. -/
def catch_handler_wf (ilen : Nat) (h : mrbc_irep_catch_handler) : Prop :=
  (h.type = mrbc_catch_type.MRB_CATCH_RESCUE.toByte ∨
   h.type = mrbc_catch_type.MRB_CATCH_ENSURE.toByte) ∧
  field32 h.begin ≤ field32 h.end_ ∧
  field32 h.end_ ≤ ilen ∧
  field32 h.target ≤ ilen

/-! ## Call-info frames and VM state (`vm.h` struct CALLINFO, struct VM) -/

/-- `struct CALLINFO` (vm.h lines 87-97), minus the `prev` link which is
represented by the position of the frame in the VM's chain list.
`reg_offset` and `n_args` are `uint8_t` fields. -/
structure mrbc_callinfo where
  pc_irep : Nat
  inst : Nat
  current_regs : Nat
  target_class : Nat
  own_class : Nat
  method_id : Nat
  reg_offset : Nat
  n_args : Nat

/-- `struct VM` (vm.h lines 105-133).  Pointer fields are `Nat`
addresses; `current_regs` is the register-window base (an offset into
the `regs` array); the `callinfo_tail` chain of `prev`-linked frames is
a list whose head is the most recent frame. -/
structure mrbc_vm where
  irep : Nat
  vm_id : Nat
  pc_irep : Nat
  inst : Nat
  current_regs : Nat
  callinfo_tail : List mrbc_callinfo
  catch_stack_idx : Nat
  catch_stack : Fin 5 → Nat
  target_class : Nat
  error_code : Int
  flag_preemption : Int

/-- Compile-time configuration (`vm_config.h` is not among the provided
sources): the register-file capacity `MAX_REGS_SIZE` and the configured
maximum call depth. -/
structure mrbc_vm_config where
  max_regs_size : Nat
  max_callinfo_depth : Nat

/-- Error outcome of a failed call-info push. -/
inductive mrbc_vm_error where
  | STACK_OVERFLOW

/-- The call-info frame built by a push: snapshots of the VM's
`pc_irep`, `inst`, `current_regs` and `target_class` together with the
call description.  `reg_offset` and `n_args` arrive as C `int`
arguments but land in the `uint8_t` fields of `struct CALLINFO`
(vm.h lines 95-96), hence the `% 256` reduction. -/
def pushed_callinfo (vm : mrbc_vm) (method_id reg_offset n_args : Nat) : mrbc_callinfo :=
  { pc_irep := vm.pc_irep
  , inst := vm.inst
  , current_regs := vm.current_regs
  , target_class := vm.target_class
  , own_class := vm.target_class
  , method_id := method_id
  , reg_offset := reg_offset % 256
  , n_args := n_args % 256 }

/-- The VM state after a successful push: the new frame linked at the
head of the chain and the register window advanced by `reg_offset`. -/
def pushed_vm (vm : mrbc_vm) (method_id reg_offset n_args : Nat) : mrbc_vm :=
  { vm with
    callinfo_tail := pushed_callinfo vm method_id reg_offset n_args :: vm.callinfo_tail
  , current_regs := vm.current_regs + reg_offset }

/-- Modelled from the spec: `mrbc_push_callinfo` (vm.h line 147 declares
only the prototype; the body is not among the provided sources).  Per
spec section 4.4 it fails with `STACK_OVERFLOW` when the chain depth
would exceed the configured limit or when
`window_offset + callee.nregs > MAX_REGS`, and otherwise snapshots the
VM state into a new head frame and advances the register window. -/
def mrbc_push_callinfo (cfg : mrbc_vm_config) (callee_nregs : Nat) (vm : mrbc_vm)
    (method_id reg_offset n_args : Nat) : Except mrbc_vm_error mrbc_vm :=
  if cfg.max_callinfo_depth < vm.callinfo_tail.length + 1 ∨
     cfg.max_regs_size < reg_offset + callee_nregs then
    Except.error .STACK_OVERFLOW
  else
    Except.ok (pushed_vm vm method_id reg_offset n_args)

/-- Modelled from the spec: `mrbc_pop_callinfo` (vm.h line 148 declares
only the prototype).  Per spec section 4.4 it restores the snapshotted
`pc_irep`, `inst`, `current_regs` and `target_class` from the head
frame and unlinks that frame; on an empty chain there is nothing to
restore. -/
def mrbc_pop_callinfo (vm : mrbc_vm) : mrbc_vm :=
  match vm.callinfo_tail with
  | [] => vm
  | ci :: rest =>
    { vm with
      pc_irep := ci.pc_irep
    , inst := ci.inst
    , current_regs := ci.current_regs
    , target_class := ci.target_class
    , callinfo_tail := rest }

/-- Modelled from the spec: `mrbc_get_callee_name` (vm.h line 144
declares only the prototype).  Per spec section 4.7 it reports the name
bound to the method id on the current call-info frame, or the synthetic
`(toplevel)` when the chain is empty.  `symname` is the object system's
symbol-id-to-name table. -/
def mrbc_get_callee_name (symname : Nat → String) (vm : mrbc_vm) : String :=
  match vm.callinfo_tail with
  | [] => "(toplevel)"
  | ci :: _ => symname ci.method_id

/-! ## Catch-stack operations -/

/-- Modelled from the spec: a host-initiated landing-pad push onto the
auxiliary catch stack (spec section 4.6; only the 5-element array and
its index appear in vm.h, lines 117-118).  The stack is bounded to 5
entries, so a push on a full stack is refused. -/
def catch_stack_push (vm : mrbc_vm) (pad : Nat) : Option mrbc_vm :=
  if h : vm.catch_stack_idx < 5 then
    some { vm with
           catch_stack := Function.update vm.catch_stack ⟨vm.catch_stack_idx, h⟩ pad
         , catch_stack_idx := vm.catch_stack_idx + 1 }
  else
    none

/-- Modelled from the spec: removing the most recent landing pad from
the auxiliary catch stack; a pop on an empty stack does nothing. -/
def catch_stack_pop (vm : mrbc_vm) : mrbc_vm :=
  if 0 < vm.catch_stack_idx then
    { vm with catch_stack_idx := vm.catch_stack_idx - 1 }
  else
    vm

/-- The VM operations that touch the call machinery: catch-stack push
and pop, and call-info push and pop. -/
inductive vm_op where
  | catch_push (pad : Nat)
  | catch_pop
  | callinfo_push (cfg : mrbc_vm_config) (callee_nregs method_id reg_offset n_args : Nat)
  | callinfo_pop

/-- One VM operation applied to a state (a refused catch-stack push and
a failed call-info push leave the state unchanged). -/
def vm_op_step (vm : mrbc_vm) : vm_op → mrbc_vm
  | .catch_push pad => (catch_stack_push vm pad).getD vm
  | .catch_pop => catch_stack_pop vm
  | .callinfo_push cfg nregs mid ro na =>
    match mrbc_push_callinfo cfg nregs vm mid ro na with
    | .ok vm2 => vm2
    | .error _ => vm
  | .callinfo_pop => mrbc_pop_callinfo vm

/-- A sequence of VM operations applied in order. -/
def vm_ops_run (vm : mrbc_vm) : List vm_op → mrbc_vm
  | [] => vm
  | op :: ops => vm_ops_run (vm_op_step vm op) ops

/-! ## Concrete states used to instantiate the theorems -/

/-- A concrete IREP whose pool table has a single entry (`plen = 1`)
and whose trailing data words are the identity, used to exercise the
pool accessor. -/
def poolsIrepEx : mrbc_irep :=
  { nlocals := 0, nregs := 2, rlen := 0, clen := 0, ilen := 4, plen := 1, slen := 0
  , code := 0, mrb_pool := 100, ptr_to_sym := 0, data := fun k => k }

/-- The same IREP with a larger declared pool count. -/
def poolsIrepExBig : mrbc_irep :=
  { poolsIrepEx with plen := 100 }

/-- A concrete well-formed catch handler: a RESCUE handler protecting
code offsets `[0, 4)` with landing pad at offset 2. -/
def catchHandlerEx : mrbc_irep_catch_handler :=
  { type := 0
  , begin := fun _ => 0
  , end_ := fun i => if i = 3 then 4 else 0
  , target := fun i => if i = 3 then 2 else 0 }

/-- A concrete VM state with an empty call-info chain and an empty
catch stack. -/
def vmEx : mrbc_vm :=
  { irep := 1, vm_id := 1, pc_irep := 10, inst := 20, current_regs := 0
  , callinfo_tail := [], catch_stack_idx := 0, catch_stack := fun _ => 0
  , target_class := 30, error_code := 0, flag_preemption := 0 }

/-- A concrete configuration: a 110-slot register file and a maximum
call depth of 8. -/
def cfgEx : mrbc_vm_config :=
  { max_regs_size := 110, max_callinfo_depth := 8 }

/-- A concrete configuration that can hold no frame at all, used to
exercise the overflow path. -/
def cfgTiny : mrbc_vm_config :=
  { max_regs_size := 3, max_callinfo_depth := 0 }

/-- A concrete configuration with a register file large enough to admit
register-window offsets above 255. -/
def cfgBig : mrbc_vm_config :=
  { max_regs_size := 1000, max_callinfo_depth := 8 }

/-- A concrete symbol-naming table. -/
def symnameEx : Nat → String :=
  fun n => if n = 7 then "puts" else "?"

/-! ## Bit-arithmetic helper lemmas -/

/-- Masking with `0xff` is reduction modulo 256. -/
lemma and_255 (x : Nat) : x &&& 255 = x % 256 := by
  have h := Nat.and_pow_two_sub_one_eq_mod x 8
  norm_num at h
  exact h

/-- Masking with `0xff` on the left. -/
lemma and_255_left (x : Nat) : 255 &&& x = x % 256 := by
  rw [Nat.and_comm]
  exact and_255 x

/-- A mask that is itself a shifted value selects shifted bits. -/
lemma and_shiftLeft_mask (x m k : Nat) : x &&& (m <<< k) = ((x >>> k) &&& m) <<< k := by
  apply Nat.eq_of_testBit_eq
  intro j
  simp only [Nat.testBit_and, Nat.testBit_shiftLeft, Nat.testBit_shiftRight]
  by_cases h : k ≤ j
  · simp [h, Nat.add_sub_cancel' h, Bool.and_comm, Bool.and_left_comm]
  · simp [h]

/-- Masking with `0xff00` extracts the second-lowest byte in place. -/
lemma and_ff00 (x : Nat) : x &&& 0xff00 = x / 256 % 256 * 256 := by
  have h0 : (0xff00 : Nat) = 255 <<< 8 := by norm_num [Nat.shiftLeft_eq]
  rw [h0, and_shiftLeft_mask, and_255, Nat.shiftLeft_eq, Nat.shiftRight_eq_div_pow]

/-- Bitwise or of a shifted value with a small value is addition. -/
lemma or_mul_add (a b k : Nat) (hb : b < 2 ^ k) : a * 2 ^ k ||| b = a * 2 ^ k + b := by
  rw [Nat.mul_comm]
  exact (Nat.mul_add_lt_is_or hb a).symm

/-- `or` with a byte below a multiple of 256 is addition. -/
lemma or_256 (a b : Nat) (hb : b < 256) : a * 256 ||| b = a * 256 + b := by
  have h := or_mul_add a b 8 (by omega)
  norm_num at h
  exact h

/-- `or` with a value below `2^16` under a multiple of `2^16` is addition. -/
lemma or_65536 (a b : Nat) (hb : b < 65536) : a * 65536 ||| b = a * 65536 + b := by
  have h := or_mul_add a b 16 (by omega)
  norm_num at h
  exact h

/-- `or` with a value below `2^24` under a multiple of `2^24` is addition. -/
lemma or_16777216 (a b : Nat) (hb : b < 16777216) : a * 16777216 ||| b = a * 16777216 + b := by
  have h := or_mul_add a b 24 (by omega)
  norm_num at h
  exact h

/-! ## Evaluation of each decoder variant on four bytes -/

/-- The little-endian unaligned variant computes the big-endian value. -/
lemma bin_to_uint32_le_eq (b0 b1 b2 b3 : Nat)
    (h0 : b0 < 256) (h1 : b1 < 256) (h2 : b2 < 256) (h3 : b3 < 256) :
    bin_to_uint32_le b0 b1 b2 b3 = b0 * 16777216 + b1 * 65536 + b2 * 256 + b3 := by
  simp only [bin_to_uint32_le, u32]
  set x := b0 + b1 * 256 + b2 * 65536 + b3 * 16777216 with hx
  have e1 : x <<< 24 % 4294967296 = b0 * 16777216 := by
    rw [Nat.shiftLeft_eq]
    omega
  have e2 : (x &&& 0xff00) <<< 8 % 4294967296 = b1 * 65536 := by
    rw [and_ff00, Nat.shiftLeft_eq]
    omega
  have e3 : x >>> 8 &&& 0xff00 = b2 * 256 := by
    rw [Nat.shiftRight_eq_div_pow, and_ff00]
    omega
  have e4 : x >>> 24 = b3 := by
    rw [Nat.shiftRight_eq_div_pow]
    omega
  rw [e1, e2, e3, e4, Nat.lor_assoc, Nat.lor_assoc,
      or_256 b2 b3 h3, or_65536 b1 _ (by omega), or_16777216 b0 _ (by omega)]
  omega

/-- The big-endian unaligned variant computes the big-endian value. -/
lemma bin_to_uint32_be_eq (b0 b1 b2 b3 : Nat) :
    bin_to_uint32_be b0 b1 b2 b3 = b0 * 16777216 + b1 * 65536 + b2 * 256 + b3 := rfl

/-- The byte-at-a-time variant computes the big-endian value. -/
lemma bin_to_uint32_align_eq (b0 b1 b2 b3 : Nat)
    (h0 : b0 < 256) (h1 : b1 < 256) (h2 : b2 < 256) (h3 : b3 < 256) :
    bin_to_uint32_align b0 b1 b2 b3 = b0 * 16777216 + b1 * 65536 + b2 * 256 + b3 := by
  simp only [bin_to_uint32_align, u32, Nat.shiftLeft_eq]
  have t1 : b0 * 2 ^ 8 % 4294967296 = b0 * 256 := by omega
  rw [t1, or_256 b0 b1 h1]
  have t2 : (b0 * 256 + b1) * 2 ^ 8 % 4294967296 = (b0 * 256 + b1) * 256 := by omega
  rw [t2, or_256 _ b2 h2]
  have t3 : ((b0 * 256 + b1) * 256 + b2) * 2 ^ 8 % 4294967296
      = ((b0 * 256 + b1) * 256 + b2) * 256 := by omega
  rw [t3, or_256 _ b3 h3]
  omega

/-- The little-endian unaligned 16-bit variant computes the big-endian value. -/
lemma bin_to_uint16_le_eq (b0 b1 : Nat) (h0 : b0 < 256) (h1 : b1 < 256) :
    bin_to_uint16_le b0 b1 = b0 * 256 + b1 := by
  simp only [bin_to_uint16_le, u16]
  set x := b0 + b1 * 256 with hx
  have e1 : x <<< 8 = (b1 * 256 + b0) * 256 := by
    rw [Nat.shiftLeft_eq]
    omega
  have e2 : x >>> 8 = b1 := by
    rw [Nat.shiftRight_eq_div_pow]
    omega
  rw [e1, e2, or_256 _ b1 h1]
  omega

/-- The big-endian unaligned 16-bit variant computes the big-endian value. -/
lemma bin_to_uint16_be_eq (b0 b1 : Nat) :
    bin_to_uint16_be b0 b1 = b0 * 256 + b1 := rfl

/-- The byte-at-a-time 16-bit variant computes the big-endian value. -/
lemma bin_to_uint16_align_eq (b0 b1 : Nat) (h0 : b0 < 256) (h1 : b1 < 256) :
    bin_to_uint16_align b0 b1 = b0 * 256 + b1 := by
  simp only [bin_to_uint16_align, u16, Nat.shiftLeft_eq]
  have t1 : b0 * 2 ^ 8 % 65536 = b0 * 256 := by omega
  rw [t1, or_256 b0 b1 h1]

/-- The specification's big-endian expression evaluates to the
big-endian value. -/
lemma be32_spec_eq (b0 b1 b2 b3 : Nat)
    (h1 : b1 < 256) (h2 : b2 < 256) (h3 : b3 < 256) :
    be32_spec b0 b1 b2 b3 = b0 * 16777216 + b1 * 65536 + b2 * 256 + b3 := by
  simp only [be32_spec, Nat.shiftLeft_eq]
  have c0 : b0 * 2 ^ 24 = b0 * 16777216 := by norm_num
  have c1 : b1 * 2 ^ 16 = b1 * 65536 := by norm_num
  have c2 : b2 * 2 ^ 8 = b2 * 256 := by norm_num
  rw [c0, c1, c2, Nat.lor_assoc, Nat.lor_assoc,
      or_256 b2 b3 h3, or_65536 b1 _ (by omega), or_16777216 b0 _ (by omega)]
  omega

/-- The specification's 16-bit big-endian expression evaluates to the
big-endian value. -/
lemma be16_spec_eq (b0 b1 : Nat) (h1 : b1 < 256) :
    be16_spec b0 b1 = b0 * 256 + b1 := by
  simp only [be16_spec, Nat.shiftLeft_eq]
  have c0 : b0 * 2 ^ 8 = b0 * 256 := by norm_num
  rw [c0, or_256 b0 b1 h1]

/-! ## Bytes produced by the encoders -/

/-- The four bytes written by `uint32_to_bin` are the big-endian digits
of the (truncated) value. -/
lemma uint32_to_bin_bytes (v d : Nat) (m : Nat → Nat) :
    uint32_to_bin v d m d = u32 v / 16777216 ∧
    uint32_to_bin v d m (d + 1) = u32 v / 65536 % 256 ∧
    uint32_to_bin v d m (d + 2) = u32 v / 256 % 256 ∧
    uint32_to_bin v d m (d + 3) = u32 v % 256 := by
  simp only [uint32_to_bin, store, u32, Nat.shiftRight_eq_div_pow]
  refine ⟨?_, ?_, ?_, ?_⟩ <;>
    · simp only [if_true, and_255_left]
      first
      | (split_ifs <;> omega)
      | omega

/-- The two bytes written by `uint16_to_bin` are the big-endian digits
of the (truncated) value. -/
lemma uint16_to_bin_bytes (v d : Nat) (m : Nat → Nat) :
    uint16_to_bin v d m d = u16 v / 256 ∧
    uint16_to_bin v d m (d + 1) = u16 v % 256 := by
  simp only [uint16_to_bin, store, u16, Nat.shiftRight_eq_div_pow]
  refine ⟨?_, ?_⟩
  · simp only [if_true, and_255_left]
    split_ifs <;> omega
  · simp only [if_true, and_255_left]

/-! ## Claim theorems: binary decoder -/

/-- C1: round-trip of the binary decoder.  For every 32-bit value `x`,
applying `bin_to_uint32` — in each of its three supported host
configurations — to the four bytes written by `uint32_to_bin x` returns
`x`; likewise every 16-bit value survives `uint16_to_bin` followed by
`bin_to_uint16` in each configuration. -/
theorem bin_roundtrip (x y d : Nat) (m : Nat → Nat)
    (hx : x < 4294967296) (hy : y < 65536) :
    bin_to_uint32_le (uint32_to_bin x d m d) (uint32_to_bin x d m (d + 1))
      (uint32_to_bin x d m (d + 2)) (uint32_to_bin x d m (d + 3)) = x ∧
    bin_to_uint32_be (uint32_to_bin x d m d) (uint32_to_bin x d m (d + 1))
      (uint32_to_bin x d m (d + 2)) (uint32_to_bin x d m (d + 3)) = x ∧
    bin_to_uint32_align (uint32_to_bin x d m d) (uint32_to_bin x d m (d + 1))
      (uint32_to_bin x d m (d + 2)) (uint32_to_bin x d m (d + 3)) = x ∧
    bin_to_uint16_le (uint16_to_bin y d m d) (uint16_to_bin y d m (d + 1)) = y ∧
    bin_to_uint16_be (uint16_to_bin y d m d) (uint16_to_bin y d m (d + 1)) = y ∧
    bin_to_uint16_align (uint16_to_bin y d m d) (uint16_to_bin y d m (d + 1)) = y := by
  obtain ⟨e0, e1, e2, e3⟩ := uint32_to_bin_bytes x d m
  obtain ⟨f0, f1⟩ := uint16_to_bin_bytes y d m
  have hux : u32 x = x := by
    simp only [u32]
    omega
  have huy : u16 y = y := by
    simp only [u16]
    omega
  rw [hux] at e0 e1 e2 e3
  rw [huy] at f0 f1
  rw [e0, e1, e2, e3, f0, f1]
  rw [bin_to_uint32_le_eq _ _ _ _ (by omega) (by omega) (by omega) (by omega),
      bin_to_uint32_be_eq,
      bin_to_uint32_align_eq _ _ _ _ (by omega) (by omega) (by omega) (by omega),
      bin_to_uint16_le_eq _ _ (by omega) (by omega),
      bin_to_uint16_be_eq,
      bin_to_uint16_align_eq _ _ (by omega) (by omega)]
  refine ⟨by omega, by omega, by omega, by omega, by omega, by omega⟩

/-- Witness for C1 at `x = 0x12345678`, `y = 0xBEEF`, destination 0,
all-zero initial memory. -/
theorem bin_roundtrip_witness :
    (305419896 : Nat) < 4294967296 ∧ (48879 : Nat) < 65536 ∧
    bin_to_uint32_le (uint32_to_bin 305419896 0 (fun _ => 0) 0)
      (uint32_to_bin 305419896 0 (fun _ => 0) 1)
      (uint32_to_bin 305419896 0 (fun _ => 0) 2)
      (uint32_to_bin 305419896 0 (fun _ => 0) 3) = 305419896 ∧
    bin_to_uint16_align (uint16_to_bin 48879 0 (fun _ => 0) 0)
      (uint16_to_bin 48879 0 (fun _ => 0) 1) = 48879 := by
  have h := bin_roundtrip 305419896 48879 0 (fun _ => 0) (by decide) (by decide)
  exact ⟨by decide, by decide, h.1, h.2.2.2.2.2⟩

/-- C2: all three conditional-compilation variants of `bin_to_uint32`
agree with the big-endian interpretation
`(b0 << 24) | (b1 << 16) | (b2 << 8) | b3` of the four input bytes, and
all variants of `bin_to_uint16` agree with `(b0 << 8) | b1`. -/
theorem bin_variants_bigendian (b0 b1 b2 b3 : Nat)
    (h0 : b0 < 256) (h1 : b1 < 256) (h2 : b2 < 256) (h3 : b3 < 256) :
    bin_to_uint32_le b0 b1 b2 b3 = be32_spec b0 b1 b2 b3 ∧
    bin_to_uint32_be b0 b1 b2 b3 = be32_spec b0 b1 b2 b3 ∧
    bin_to_uint32_align b0 b1 b2 b3 = be32_spec b0 b1 b2 b3 ∧
    bin_to_uint16_le b0 b1 = be16_spec b0 b1 ∧
    bin_to_uint16_be b0 b1 = be16_spec b0 b1 ∧
    bin_to_uint16_align b0 b1 = be16_spec b0 b1 := by
  rw [bin_to_uint32_le_eq b0 b1 b2 b3 h0 h1 h2 h3,
      bin_to_uint32_be_eq,
      bin_to_uint32_align_eq b0 b1 b2 b3 h0 h1 h2 h3,
      bin_to_uint16_le_eq b0 b1 h0 h1,
      bin_to_uint16_be_eq,
      bin_to_uint16_align_eq b0 b1 h0 h1,
      be32_spec_eq b0 b1 b2 b3 h1 h2 h3,
      be16_spec_eq b0 b1 h1]
  exact ⟨rfl, rfl, rfl, rfl, rfl, rfl⟩

/-- Witness for C2 at the bytes `0x12 0x34 0x56 0x78`. -/
theorem bin_variants_bigendian_witness :
    (18 : Nat) < 256 ∧ (52 : Nat) < 256 ∧ (86 : Nat) < 256 ∧ (120 : Nat) < 256 ∧
    bin_to_uint32_le 18 52 86 120 = be32_spec 18 52 86 120 ∧
    bin_to_uint32_align 18 52 86 120 = be32_spec 18 52 86 120 ∧
    bin_to_uint16_le 18 52 = be16_spec 18 52 := by
  have h := bin_variants_bigendian 18 52 86 120 (by decide) (by decide) (by decide) (by decide)
  exact ⟨by decide, by decide, by decide, by decide, h.1, h.2.2.1, h.2.2.2.1⟩

/-! ## Claim theorems: catch-handler layout (C3) -/

/-- C3 counterexample: an `IREP_CATCH_HANDLER` record occupies
`1 + 4 + 4 + 4 = 13` bytes, not 9, so a catch table with `clen = 1`
occupies 13 bytes, not `1 × 9`. -/
theorem catch_handler_not_nine_bytes :
    catch_handler_size = 13 ∧ catch_handler_size ≠ 9 ∧ catch_table_size 1 ≠ 9 * 1 := by
  decide

/-- C3 (amended): each catch-table entry is a record
`{kind ∈ {RESCUE, ENSURE}, begin, end, target}` with `begin ≤ end`
offsets into the owning IREP's code and `target` the offset jumped to
on match, and the catch table occupies exactly `clen × 13` bytes — every
handler record is 13 bytes. -/
theorem catch_table_layout (clen ilen : Nat) (h : mrbc_irep_catch_handler)
    (hwf : catch_handler_wf ilen h) :
    catch_table_size clen = clen * 13 ∧
    (∀ m base k, read_catch_table_entry m base k = read_catch_handler m (base + k * 13)) ∧
    (h.type = mrbc_catch_type.MRB_CATCH_RESCUE.toByte ∨
     h.type = mrbc_catch_type.MRB_CATCH_ENSURE.toByte) ∧
    field32 h.begin ≤ field32 h.end_ ∧
    field32 h.end_ ≤ ilen ∧
    field32 h.target ≤ ilen := by
  obtain ⟨hk, hbe, hei, hti⟩ := hwf
  exact ⟨rfl, fun m base k => rfl, hk, hbe, hei, hti⟩

/-- Witness for C3's amended theorem on a concrete RESCUE handler over
a 10-byte code stream. -/
theorem catch_table_layout_witness :
    catch_handler_wf 10 catchHandlerEx ∧
    catch_table_size 3 = 3 * 13 ∧
    field32 catchHandlerEx.begin ≤ field32 catchHandlerEx.end_ := by
  have hwf : catch_handler_wf 10 catchHandlerEx :=
    ⟨Or.inl rfl, by decide, by decide, by decide⟩
  have h := catch_table_layout 3 10 catchHandlerEx hwf
  exact ⟨hwf, h.1, h.2.2.2.1⟩

/-! ## Claim theorems: pool accessor (C4) -/

/-- C4 counterexample: the `mrbc_irep_get_pools_ptr` macro contains no
bounds check in any build.  On a concrete IREP with `plen = 1`, the
access at the out-of-bounds index 5 still computes
`mrb_pool + tbl_pools[5]` (here `100 + 5`), and the result does not
change when `plen` does — so the access is not bounds-checked against
`plen` in debug builds. -/
theorem pools_ptr_unchecked :
    poolsIrepEx.plen = 1 ∧
    mrbc_irep_get_pools_ptr poolsIrepEx 5 = 105 ∧
    poolsIrepExBig.plen = 100 ∧
    mrbc_irep_get_pools_ptr poolsIrepEx 5 = mrbc_irep_get_pools_ptr poolsIrepExBig 5 := by
  exact ⟨rfl, rfl, rfl, rfl⟩

/-- C4 (amended): `pool_entry(irep, n)` returns a borrowed view located
at the 16-bit offset `tbl_pools[n]` from `mrb_pool`; the macro performs
no bounds check in any build (debug included), so `n < plen` is a
precondition established by the loader, not a checked condition. -/
theorem pools_ptr_offset (irep : mrbc_irep) (n : Nat) (hn : n < irep.plen) :
    mrbc_irep_get_pools_ptr irep n = irep.mrb_pool + mrbc_irep_tbl_pools irep n ∧
    mrbc_irep_tbl_pools irep n < 65536 ∧
    ∀ p, mrbc_irep_get_pools_ptr { irep with plen := p } n = mrbc_irep_get_pools_ptr irep n := by
  refine ⟨rfl, ?_, fun p => rfl⟩
  simp only [mrbc_irep_tbl_pools]
  omega

/-- Witness for C4's amended theorem at the in-bounds index 0. -/
theorem pools_ptr_offset_witness :
    0 < poolsIrepEx.plen ∧
    mrbc_irep_get_pools_ptr poolsIrepEx 0 = 100 ∧
    mrbc_irep_tbl_pools poolsIrepEx 0 < 65536 := by
  have h := pools_ptr_offset poolsIrepEx 0 (by decide)
  exact ⟨by decide, h.1, h.2.1⟩

/-! ## Claim theorems: call-info push and pop (C5, C6, C9) -/

/-- C5: `mrbc_push_callinfo` fails with `STACK_OVERFLOW` exactly when
the call-info chain depth would exceed the configured maximum call
depth or `reg_offset + callee.nregs > MAX_REGS`; otherwise it succeeds,
links the snapshot frame at the head of the chain, and advances the
register window by `reg_offset`. -/
theorem push_callinfo_overflow_iff (cfg : mrbc_vm_config) (callee_nregs : Nat)
    (vm : mrbc_vm) (mid ro na : Nat) :
    (mrbc_push_callinfo cfg callee_nregs vm mid ro na = Except.error .STACK_OVERFLOW ↔
      vm.callinfo_tail.length + 1 > cfg.max_callinfo_depth ∨
      ro + callee_nregs > cfg.max_regs_size) ∧
    (vm.callinfo_tail.length + 1 ≤ cfg.max_callinfo_depth →
     ro + callee_nregs ≤ cfg.max_regs_size →
      mrbc_push_callinfo cfg callee_nregs vm mid ro na
        = Except.ok (pushed_vm vm mid ro na) ∧
      (pushed_vm vm mid ro na).callinfo_tail
        = pushed_callinfo vm mid ro na :: vm.callinfo_tail ∧
      (pushed_vm vm mid ro na).current_regs = vm.current_regs + ro) := by
  refine ⟨?_, fun hd hr => ?_⟩
  · unfold mrbc_push_callinfo
    by_cases h : cfg.max_callinfo_depth < vm.callinfo_tail.length + 1 ∨
        cfg.max_regs_size < ro + callee_nregs
    · rw [if_pos h]
      exact iff_of_true rfl (by omega)
    · rw [if_neg h]
      exact iff_of_false (fun hcontra => Except.noConfusion hcontra) (by omega)
  · have h : ¬(cfg.max_callinfo_depth < vm.callinfo_tail.length + 1 ∨
        cfg.max_regs_size < ro + callee_nregs) := by omega
    unfold mrbc_push_callinfo
    rw [if_neg h]
    exact ⟨rfl, rfl, rfl⟩

/-- Witness for C5: with a zero-depth configuration the push overflows;
with an adequate configuration it succeeds. -/
theorem push_callinfo_overflow_iff_witness :
    mrbc_push_callinfo cfgTiny 2 vmEx 7 3 4 = Except.error .STACK_OVERFLOW ∧
    vmEx.callinfo_tail.length + 1 ≤ cfgEx.max_callinfo_depth ∧
    (3 : Nat) + 2 ≤ cfgEx.max_regs_size ∧
    mrbc_push_callinfo cfgEx 2 vmEx 7 3 4 = Except.ok (pushed_vm vmEx 7 3 4) := by
  refine ⟨?_, by decide, by decide, ?_⟩
  · exact (push_callinfo_overflow_iff cfgTiny 2 vmEx 7 3 4).1.mpr (by decide)
  · exact ((push_callinfo_overflow_iff cfgEx 2 vmEx 7 3 4).2 (by decide) (by decide)).1

/-- C6: popping immediately after a successful push restores the VM
exactly: `pc_irep`, `inst`, `current_regs` and `target_class` regain
their pre-push values and the head frame is unlinked, so the whole
state equals the state before the push. -/
theorem pop_after_push_restores (cfg : mrbc_vm_config) (callee_nregs : Nat)
    (vm : mrbc_vm) (mid ro na : Nat)
    (hok : mrbc_push_callinfo cfg callee_nregs vm mid ro na
      = Except.ok (pushed_vm vm mid ro na)) :
    mrbc_pop_callinfo (pushed_vm vm mid ro na) = vm := rfl

/-- Witness for C6 on a concrete VM and a successful push. -/
theorem pop_after_push_restores_witness :
    mrbc_push_callinfo cfgEx 2 vmEx 7 3 4 = Except.ok (pushed_vm vmEx 7 3 4) ∧
    mrbc_pop_callinfo (pushed_vm vmEx 7 3 4) = vmEx := by
  have hok : mrbc_push_callinfo cfgEx 2 vmEx 7 3 4 = Except.ok (pushed_vm vmEx 7 3 4) := rfl
  exact ⟨hok, pop_after_push_restores cfgEx 2 vmEx 7 3 4 hok⟩

/-- C9: the frame records `reg_offset` and `n_args` in `uint8_t`
fields, so a successful push stores the `int` arguments reduced modulo
256. -/
theorem push_callinfo_truncates_u8 (cfg : mrbc_vm_config) (callee_nregs : Nat)
    (vm : mrbc_vm) (mid ro na : Nat)
    (hd : vm.callinfo_tail.length + 1 ≤ cfg.max_callinfo_depth)
    (hr : ro + callee_nregs ≤ cfg.max_regs_size) :
    mrbc_push_callinfo cfg callee_nregs vm mid ro na
      = Except.ok (pushed_vm vm mid ro na) ∧
    (pushed_vm vm mid ro na).callinfo_tail.head? = some (pushed_callinfo vm mid ro na) ∧
    (pushed_callinfo vm mid ro na).reg_offset = ro % 256 ∧
    (pushed_callinfo vm mid ro na).n_args = na % 256 := by
  refine ⟨?_, rfl, rfl, rfl⟩
  unfold mrbc_push_callinfo
  rw [if_neg (by omega)]

/-- Witness for C9: a window offset of 300 is recorded as 44 and an
argument count of 700 as 188. -/
theorem push_callinfo_truncates_u8_witness :
    vmEx.callinfo_tail.length + 1 ≤ cfgBig.max_callinfo_depth ∧
    (300 : Nat) + 2 ≤ cfgBig.max_regs_size ∧
    mrbc_push_callinfo cfgBig 2 vmEx 9 300 700 = Except.ok (pushed_vm vmEx 9 300 700) ∧
    (pushed_callinfo vmEx 9 300 700).reg_offset = 44 ∧
    (pushed_callinfo vmEx 9 300 700).n_args = 188 := by
  have h := push_callinfo_truncates_u8 cfgBig 2 vmEx 9 300 700 (by decide) (by decide)
  exact ⟨by decide, by decide, h.1, h.2.2.1, h.2.2.2⟩

/-! ## Claim theorems: catch-stack bound (C7) -/

/-- One VM operation preserves the catch-stack bound. -/
lemma vm_op_step_catch_le (vm : mrbc_vm) (op : vm_op) (h : vm.catch_stack_idx ≤ 5) :
    (vm_op_step vm op).catch_stack_idx ≤ 5 := by
  cases op with
  | catch_push pad =>
    simp only [vm_op_step, catch_stack_push]
    split_ifs with hlt
    · simp only [Option.getD_some]
      omega
    · simp only [Option.getD_none]
      exact h
  | catch_pop =>
    simp only [vm_op_step, catch_stack_pop]
    split_ifs
    · exact Nat.le_trans (Nat.sub_le _ _) h
    · exact h
  | callinfo_push cfg nregs mid ro na =>
    simp only [vm_op_step]
    unfold mrbc_push_callinfo
    split_ifs
    · exact h
    · exact h
  | callinfo_pop =>
    simp only [vm_op_step, mrbc_pop_callinfo]
    split
    · exact h
    · exact h

/-- C7: across every sequence of VM operations, `catch_stack_idx` never
exceeds the 5 slots of the `catch_stack` array. -/
theorem catch_stack_bounded (ops : List vm_op) (vm : mrbc_vm)
    (h : vm.catch_stack_idx ≤ 5) :
    (vm_ops_run vm ops).catch_stack_idx ≤ 5 := by
  induction ops generalizing vm with
  | nil => exact h
  | cons op ops ih => exact ih (vm_op_step vm op) (vm_op_step_catch_le vm op h)

/-- Witness for C7: six pushes in a row (the sixth is refused), a pop
and a call round-trip keep the index within bounds. -/
theorem catch_stack_bounded_witness :
    vmEx.catch_stack_idx ≤ 5 ∧
    (vm_ops_run vmEx
      [vm_op.catch_push 11, vm_op.catch_push 12, vm_op.catch_push 13,
       vm_op.catch_push 14, vm_op.catch_push 15, vm_op.catch_push 16,
       vm_op.catch_pop, vm_op.callinfo_push cfgEx 2 7 3 4,
       vm_op.callinfo_pop]).catch_stack_idx ≤ 5 :=
  ⟨by decide, catch_stack_bounded _ vmEx (by decide)⟩

/-! ## Claim theorems: callee name (C8) -/

/-- C8: `mrbc_get_callee_name` reports the name bound to the method id
on the head call-info frame when the chain is non-empty and the
synthetic `(toplevel)` when it is empty. -/
theorem callee_name_cases (symname : Nat → String) (vm : mrbc_vm) :
    (vm.callinfo_tail = [] → mrbc_get_callee_name symname vm = "(toplevel)") ∧
    (∀ ci rest, vm.callinfo_tail = ci :: rest →
      mrbc_get_callee_name symname vm = symname ci.method_id) := by
  constructor
  · intro he
    simp [mrbc_get_callee_name, he]
  · intro ci rest he
    simp [mrbc_get_callee_name, he]

/-- Witness for C8 on the empty chain and on a chain with one frame of
method id 7. -/
theorem callee_name_cases_witness :
    vmEx.callinfo_tail = [] ∧
    mrbc_get_callee_name symnameEx vmEx = "(toplevel)" ∧
    mrbc_get_callee_name symnameEx (pushed_vm vmEx 7 3 4) = "puts" := by
  refine ⟨rfl, (callee_name_cases symnameEx vmEx).1 rfl, ?_⟩
  exact (callee_name_cases symnameEx (pushed_vm vmEx 7 3 4)).2
    (pushed_callinfo vmEx 7 3 4) vmEx.callinfo_tail rfl

/-! ## Claim theorems: encoder frame effect (C10) -/

/-- C10: `uint32_to_bin` writes exactly the four destination bytes
`d .. d+3` (the big-endian digits of `v`) and `uint16_to_bin` exactly
`d, d+1`: every other address keeps its old contents, and the bytes
written are independent of the destination's prior contents. -/
theorem to_bin_frame (v d : Nat) (m m2 : Nat → Nat) :
    (∀ a, a < d ∨ d + 4 ≤ a → uint32_to_bin v d m a = m a) ∧
    (∀ i, i < 4 → uint32_to_bin v d m (d + i) = uint32_to_bin v d m2 (d + i)) ∧
    (∀ a, a < d ∨ d + 2 ≤ a → uint16_to_bin v d m a = m a) ∧
    (∀ i, i < 2 → uint16_to_bin v d m (d + i) = uint16_to_bin v d m2 (d + i)) ∧
    (uint32_to_bin v d m d = u32 v / 16777216 ∧
     uint32_to_bin v d m (d + 1) = u32 v / 65536 % 256 ∧
     uint32_to_bin v d m (d + 2) = u32 v / 256 % 256 ∧
     uint32_to_bin v d m (d + 3) = u32 v % 256) ∧
    (uint16_to_bin v d m d = u16 v / 256 ∧
     uint16_to_bin v d m (d + 1) = u16 v % 256) := by
  refine ⟨?_, ?_, ?_, ?_, uint32_to_bin_bytes v d m, uint16_to_bin_bytes v d m⟩
  · intro a ha
    simp only [uint32_to_bin, store]
    split_ifs <;> first | rfl | omega
  · intro i hi
    simp only [uint32_to_bin, store]
    split_ifs <;> first | rfl | omega
  · intro a ha
    simp only [uint16_to_bin, store]
    split_ifs <;> first | rfl | omega
  · intro i hi
    simp only [uint16_to_bin, store]
    split_ifs <;> first | rfl | omega

/-- Witness for C10: addresses outside the written window keep their
contents, and the written bytes do not depend on the old memory. -/
theorem to_bin_frame_witness :
    uint32_to_bin 305419896 10 (fun a => a) 3 = 3 ∧
    uint32_to_bin 305419896 10 (fun a => a) 20 = 20 ∧
    uint32_to_bin 305419896 10 (fun a => a) 12
      = uint32_to_bin 305419896 10 (fun _ => 99) 12 ∧
    uint16_to_bin 48879 10 (fun a => a) 9 = 9 ∧
    uint16_to_bin 48879 10 (fun a => a) 11
      = uint16_to_bin 48879 10 (fun _ => 99) 11 := by
  have h := to_bin_frame 305419896 10 (fun a => a) (fun _ => 99)
  have h2 := to_bin_frame 48879 10 (fun a => a) (fun _ => 99)
  exact ⟨h.1 3 (Or.inl (by decide)), h.1 20 (Or.inr (by decide)),
    h.2.1 2 (by decide), h2.2.2.1 9 (Or.inl (by decide)), h2.2.2.2.1 1 (by decide)⟩

end Mrubyc
